import Mathlib

/-!
Verification of `futures_spike_bot.py`: a shallow embedding of its pure
decision logic (percentage change, threshold check, dedup state, fetch
retry, symbol filtering, cycle pacing) together with theorems settling
the specification claims.  Network and clock effects are modelled as
explicit inputs: a fetch is an oracle `Nat → FetchAttempt α` giving the
outcome of each attempt, a Telegram send is a `SendResult`, and the
wall-clock string is a parameter.
-/

/-- Threshold for the 1-minute checker (src line 22: `ONE_MIN_THRESHOLD = 3.5`). -/
def ONE_MIN_THRESHOLD : ℚ := 7 / 2

/-- Threshold for the 5-minute checker (src line 23: `FIVE_MIN_THRESHOLD = 5.0`). -/
def FIVE_MIN_THRESHOLD : ℚ := 5

/-- Seconds between 1m cycles (src line 24: `ONE_MIN_INTERVAL = 30`). -/
def ONE_MIN_INTERVAL : ℚ := 30

/-- Seconds between 5m cycles (src line 25: `FIVE_MIN_INTERVAL = 240`). -/
def FIVE_MIN_INTERVAL : ℚ := 240

/-- Direction label for a positive change (src line 112). -/
def dirUp : String := "UP"

/-- Direction label for a non-positive change (src line 112). -/
def dirDown : String := "DOWN"

/-- Exchange status filter value (src line 66). -/
def statusTrading : String := "TRADING"

/-- Quote-currency suffix filter value (src line 66). -/
def usdtSuffix : String := "USDT"

/-- Python's `str.endswith` (src line 66): the suffix test on the character
sequence of the string (core's `String.endsWith` is the same test but is
written with well-founded recursion on byte positions, which a kernel
evaluation cannot unfold). -/
def endswith (s suffix : String) : Bool :=
  List.isSuffixOf suffix.data s.data

/-- Case-insensitive string equality, character-wise lowercasing. -/
def lowerEq (a b : String) : Bool :=
  a.data.map Char.toLower == b.data.map Char.toLower

/-- src lines 44-45: `percent_change(o, c) = 0.0 if o == 0 else (c - o) / o * 100.0`. -/
def percent_change (o c : ℚ) : ℚ :=
  if o = 0 then 0 else (c - o) / o * 100

/-- A candle as built by `get_last_candle` (src lines 75-81).  `open_` is the
field Python calls `open` (a Lean keyword). -/
structure Candle where
  open_time : Nat
  open_ : ℚ
  high : ℚ
  low : ℚ
  close : ℚ
deriving DecidableEq

/-- One kline row of the exchange reply, positions 0-4 of the wire array
(src lines 76-80): open time, open, high, low, close. -/
structure KlineRow where
  t : Nat
  o : ℚ
  h : ℚ
  l : ℚ
  c : ℚ
deriving DecidableEq

/-- Outcome of one network attempt inside `fetch_json`: either a parsed JSON
body, or any transport error / non-2xx response (`raise_for_status`). -/
inductive FetchAttempt (α : Type) where
  | ok (data : α)
  | err
deriving DecidableEq

/-- src lines 49-60, the retry loop of `fetch_json`, at loop index `i` with
`k = retries - i` attempts left after this one.  `k = 0` is the last
iteration (`i == retries`): an error there logs and returns `None`;
otherwise an error sleeps and moves to attempt `i + 1`. -/
def fetch_json_aux {α : Type} (net : Nat → FetchAttempt α) : Nat → Nat → Option α
  | i, 0 =>
    match net i with
    | FetchAttempt.ok d => some d
    | FetchAttempt.err => none
  | i, k + 1 =>
    match net i with
    | FetchAttempt.ok d => some d
    | FetchAttempt.err => fetch_json_aux net (i + 1) k

/-- src lines 49-60: `fetch_json` runs attempts `0 .. retries` and returns the
first successful body, or `None` when all `retries + 1` attempts fail. -/
def fetch_json {α : Type} (net : Nat → FetchAttempt α) (retries : Nat) : Option α :=
  fetch_json_aux net 0 retries

/-- src lines 75-81: build the candle dict from a kline row. -/
def candleOfRow (k : KlineRow) : Candle :=
  ⟨k.t, k.o, k.h, k.l, k.c⟩

/-- src lines 69-81: `get_last_candle` fetches the kline rows with the default
`retries = 2`, returns `None` when the fetch failed or the exchange returned
no bars (`if not data`), and otherwise the candle of the *last* row
(`data[-1]`, the currently forming bar). -/
def get_last_candle (net : Nat → FetchAttempt (List KlineRow)) : Option Candle :=
  match fetch_json net 2 with
  | none => none
  | some data =>
    match data.getLast? with
    | none => none
    | some k => some (candleOfRow k)

/-- The dedup dictionaries `last_alerted_1m` / `last_alerted_5m`
(src lines 27-28), as an association list read through `List.lookup`. -/
abbrev DedupMap := List (String × Nat)

/-- src lines 121 / 147: `last_alerted[symbol] = ot` (dict assignment; the
freshest binding shadows older ones under `List.lookup`). -/
def dset (st : DedupMap) (sym : String) (ot : Nat) : DedupMap :=
  (sym, ot) :: st

/-- The data interpolated into the alert f-string (src lines 113-119 and
139-145): symbol, `now_str()`, direction, change percent, open, close.
The candle's `high` and `low` do not appear in the message. -/
structure SpikeMessage where
  symbol : String
  timestamp : String
  direction : String
  change : ℚ
  open_ : ℚ
  close : ℚ
deriving DecidableEq

/-- Outcome of one `check_1m` / `check_5m` call. -/
inductive CheckResult where
  | fetchAbsent
  | suppressedDedup
  | suppressedBelow
  | errorLogged
  | notified (msg : SpikeMessage)
deriving DecidableEq

/-- Whether a check dispatched a notification. -/
def CheckResult.isNotified : CheckResult → Bool
  | CheckResult.notified _ => true
  | _ => false

/-- Whether the threshold branch was entered (a notification was due):
either the send succeeded (`notified`) or it raised and the per-symbol
`except` logged it (`errorLogged`). -/
def CheckResult.breached : CheckResult → Bool
  | CheckResult.notified _ => true
  | CheckResult.errorLogged => true
  | _ => false

/-- Outcome of the `send_telegram` call inside the check: it either returns
(`ok`) or raises a transport exception (`raised`). -/
inductive SendResult where
  | ok
  | raised
deriving DecidableEq

/-- src lines 102-124 / 128-150: the shared body of `check_1m` and `check_5m`,
parameterised by the timeframe threshold.  `fetched` is the result of
`get_last_candle`, `send` the outcome of `send_telegram`, `now` the
`now_str()` timestamp.  Mirrors the Python control flow: absent candle →
return; dedup hit → return; below threshold → return; breach → build the
message, send (a raise is caught by the `except`, leaving state untouched),
then record `last_alerted[symbol] = ot`. -/
def checkTF (th : ℚ) (st : DedupMap) (sym : String) (fetched : Option Candle)
    (send : SendResult) (now : String) : DedupMap × CheckResult :=
  match fetched with
  | none => (st, CheckResult.fetchAbsent)
  | some c =>
    if List.lookup sym st = some c.open_time then
      (st, CheckResult.suppressedDedup)
    else if th ≤ |percent_change c.open_ c.close| then
      match send with
      | SendResult.ok =>
          (dset st sym c.open_time,
           CheckResult.notified
             ⟨sym, now,
              if 0 < percent_change c.open_ c.close then dirUp else dirDown,
              percent_change c.open_ c.close, c.open_, c.close⟩)
      | SendResult.raised => (st, CheckResult.errorLogged)
    else
      (st, CheckResult.suppressedBelow)

/-- src lines 102-124: `check_1m`. -/
def check_1m (st : DedupMap) (sym : String) (fetched : Option Candle)
    (send : SendResult) (now : String) : DedupMap × CheckResult :=
  checkTF ONE_MIN_THRESHOLD st sym fetched send now

/-- src lines 128-150: `check_5m`. -/
def check_5m (st : DedupMap) (sym : String) (fetched : Option Candle)
    (send : SendResult) (now : String) : DedupMap × CheckResult :=
  checkTF FIVE_MIN_THRESHOLD st sym fetched send now

/-- A sequence of polls of one symbol on one timeframe: each observation is
the fetched candle and the send outcome that would apply if a message is
dispatched.  Threads the dedup map through `checkTF` and collects results. -/
def runChecks (th : ℚ) (sym now : String) :
    DedupMap → List (Candle × SendResult) → DedupMap × List CheckResult
  | st, [] => (st, [])
  | st, (c, sr) :: rest =>
    (((runChecks th sym now (checkTF th st sym (some c) sr now).1 rest).1),
     (checkTF th st sym (some c) sr now).2 ::
       (runChecks th sym now (checkTF th st sym (some c) sr now).1 rest).2)

/-- How many checks in a result list dispatched a notification. -/
def countNotified (rs : List CheckResult) : Nat :=
  (rs.filter CheckResult.isNotified).length

/-- One cycle's fan-out (src lines 163-164 / 171-172): run the per-symbol
check for every symbol of the fixed list, threading the dedup map.  The
sequentialised order stands for the awaited `gather` of all tasks. -/
def runCycle (f : DedupMap → String → DedupMap × CheckResult) :
    DedupMap → List String → DedupMap × List CheckResult
  | st, [] => (st, [])
  | st, s :: rest =>
    ((runCycle f (f st s).1 rest).1,
     (f st s).2 :: (runCycle f (f st s).1 rest).2)

/-- src lines 165 / 173: `max(1, INTERVAL - (time.time() - start))`. -/
def monitor_sleep (interval elapsed : ℚ) : ℚ :=
  max 1 (interval - elapsed)

/-- One full iteration of a monitor loop (src lines 161-165 / 169-173): the
fan-out over all symbols completes, then the loop sleeps for
`monitor_sleep interval elapsed`. -/
def monitor_cycle (f : DedupMap → String → DedupMap × CheckResult)
    (interval : ℚ) (st : DedupMap) (syms : List String) (elapsed : ℚ) :
    DedupMap × List CheckResult × ℚ :=
  ((runCycle f st syms).1, (runCycle f st syms).2, monitor_sleep interval elapsed)

/-- src lines 159-165: one iteration of `monitor_1m`, where each symbol's unit
of work is `check_1m` on that symbol's fetched candle. -/
def monitor_1m_cycle (st : DedupMap) (syms : List String)
    (fetchEnv : String → Option Candle) (sendEnv : String → SendResult)
    (now : String) (elapsed : ℚ) : DedupMap × List CheckResult × ℚ :=
  monitor_cycle (fun st s => check_1m st s (fetchEnv s) (sendEnv s) now)
    ONE_MIN_INTERVAL st syms elapsed

/-- src lines 167-173: one iteration of `monitor_5m`. -/
def monitor_5m_cycle (st : DedupMap) (syms : List String)
    (fetchEnv : String → Option Candle) (sendEnv : String → SendResult)
    (now : String) (elapsed : ℚ) : DedupMap × List CheckResult × ℚ :=
  monitor_cycle (fun st s => check_5m st s (fetchEnv s) (sendEnv s) now)
    FIVE_MIN_INTERVAL st syms elapsed

/-- One entry of the exchange catalogue (`exchangeInfo["symbols"]`),
restricted to the two fields the program reads (src lines 65-66). -/
structure SymbolInfo where
  symbol : String
  status : String
deriving DecidableEq

/-- src lines 62-67: the list comprehension of `get_usdt_perpetual_symbols`,
applied to the parsed `symbols` entry of the exchange reply. -/
def get_usdt_perpetual_symbols (catalog : List SymbolInfo) : List String :=
  (catalog.filter fun s => s.status == statusTrading && endswith s.symbol usdtSuffix).map
    fun s => s.symbol

/-- Modelled from the spec: the optional instrument allow-list of §4.1 / §6
("If an allow-list is configured, intersects the result with it
(case-insensitive)").  No allow-list exists anywhere in
`futures_spike_bot.py`; this definition supplies the missing configured
filter, keeping symbols whose lowercased identifier equals some lowercased
allow-list entry, and is the identity when no allow-list is configured. -/
def apply_allow_list (allow : Option (List String)) (syms : List String) : List String :=
  match allow with
  | none => syms
  | some al => syms.filter fun s => al.any fun a => lowerEq a s

/-- The spec's `resolve()` (§4.1): the source's catalogue filter followed by
the spec-modelled allow-list intersection. -/
def resolve (allow : Option (List String)) (catalog : List SymbolInfo) : List String :=
  apply_allow_list allow (get_usdt_perpetual_symbols catalog)

/-- What `main` (src lines 177-186) does after resolving the symbol list.
`monitors syms` stands for proceeding into
`gather(monitor_1m(syms), monitor_5m(syms))`; `abortEmpty` stands for the
abort-on-empty-universe exit the spec describes, which no line of `main`
performs. -/
inductive StartupOutcome where
  | monitors (syms : List String)
  | abortEmpty
deriving DecidableEq

/-- src lines 177-186: `main` resolves the symbols, logs the count, sends the
startup message and unconditionally starts both monitor loops; there is no
branch on an empty list. -/
def main_startup (catalog : List SymbolInfo) : StartupOutcome :=
  StartupOutcome.monitors (get_usdt_perpetual_symbols catalog)

/-! ### Helper lemmas about the check body -/

theorem checkTF_none (th : ℚ) (st : DedupMap) (sym : String) (sr : SendResult) (now : String) :
    checkTF th st sym none sr now = (st, CheckResult.fetchAbsent) := rfl

theorem checkTF_hit (th : ℚ) (st : DedupMap) (sym : String) (c : Candle) (sr : SendResult)
    (now : String) (h : List.lookup sym st = some c.open_time) :
    checkTF th st sym (some c) sr now = (st, CheckResult.suppressedDedup) := by
  simp [checkTF, h]

theorem checkTF_below (th : ℚ) (st : DedupMap) (sym : String) (c : Candle) (sr : SendResult)
    (now : String) (h : ¬ List.lookup sym st = some c.open_time)
    (hb : ¬ th ≤ |percent_change c.open_ c.close|) :
    checkTF th st sym (some c) sr now = (st, CheckResult.suppressedBelow) := by
  simp [checkTF, h, hb]

theorem checkTF_breach_ok (th : ℚ) (st : DedupMap) (sym : String) (c : Candle)
    (now : String) (h : ¬ List.lookup sym st = some c.open_time)
    (hb : th ≤ |percent_change c.open_ c.close|) :
    checkTF th st sym (some c) SendResult.ok now =
      (dset st sym c.open_time,
       CheckResult.notified
         ⟨sym, now,
          if 0 < percent_change c.open_ c.close then dirUp else dirDown,
          percent_change c.open_ c.close, c.open_, c.close⟩) := by
  simp [checkTF, h, hb]

theorem checkTF_breach_raised (th : ℚ) (st : DedupMap) (sym : String) (c : Candle)
    (now : String) (h : ¬ List.lookup sym st = some c.open_time)
    (hb : th ≤ |percent_change c.open_ c.close|) :
    checkTF th st sym (some c) SendResult.raised now = (st, CheckResult.errorLogged) := by
  simp [checkTF, h, hb]

theorem checkTF_fst_of_not_notified (th : ℚ) (st : DedupMap) (sym : String) (c : Candle)
    (sr : SendResult) (now : String)
    (h : (checkTF th st sym (some c) sr now).2.isNotified = false) :
    (checkTF th st sym (some c) sr now).1 = st := by
  by_cases h1 : List.lookup sym st = some c.open_time
  · rw [checkTF_hit th st sym c sr now h1]
  · by_cases h2 : th ≤ |percent_change c.open_ c.close|
    · cases sr
      · rw [checkTF_breach_ok th st sym c now h1 h2] at h
        simp [CheckResult.isNotified] at h
      · rw [checkTF_breach_raised th st sym c now h1 h2]
    · rw [checkTF_below th st sym c sr now h1 h2]

theorem checkTF_fst_of_notified (th : ℚ) (st : DedupMap) (sym : String) (c : Candle)
    (sr : SendResult) (now : String)
    (h : (checkTF th st sym (some c) sr now).2.isNotified = true) :
    (checkTF th st sym (some c) sr now).1 = dset st sym c.open_time := by
  by_cases h1 : List.lookup sym st = some c.open_time
  · rw [checkTF_hit th st sym c sr now h1] at h
    simp [CheckResult.isNotified] at h
  · by_cases h2 : th ≤ |percent_change c.open_ c.close|
    · cases sr
      · rw [checkTF_breach_ok th st sym c now h1 h2]
      · rw [checkTF_breach_raised th st sym c now h1 h2] at h
        simp [CheckResult.isNotified] at h
    · rw [checkTF_below th st sym c sr now h1 h2] at h
      simp [CheckResult.isNotified] at h

theorem lookup_dset (st : DedupMap) (sym : String) (ot : Nat) :
    List.lookup sym (dset st sym ot) = some ot := by
  simp [dset, List.lookup]

/-! ### Helper lemmas about poll sequences -/

theorem runChecks_nil (th : ℚ) (sym now : String) (st : DedupMap) :
    runChecks th sym now st [] = (st, []) := rfl

theorem runChecks_cons (th : ℚ) (sym now : String) (st : DedupMap) (c : Candle)
    (sr : SendResult) (rest : List (Candle × SendResult)) :
    runChecks th sym now st ((c, sr) :: rest) =
      ((runChecks th sym now (checkTF th st sym (some c) sr now).1 rest).1,
       (checkTF th st sym (some c) sr now).2 ::
         (runChecks th sym now (checkTF th st sym (some c) sr now).1 rest).2) := rfl

theorem countNotified_nil : countNotified [] = 0 := rfl

theorem countNotified_cons (r : CheckResult) (rs : List CheckResult) :
    countNotified (r :: rs) = (if r.isNotified then 1 else 0) + countNotified rs := by
  by_cases h : r.isNotified = true
  · simp [countNotified, List.filter_cons, h, Nat.add_comm]
  · simp [countNotified, List.filter_cons, h]

theorem runChecks_suppressed (th : ℚ) (sym now : String) :
    ∀ (obs : List (Candle × SendResult)) (st : DedupMap) (T : Nat),
      List.lookup sym st = some T → (∀ p ∈ obs, (Prod.fst p).open_time = T) →
      countNotified (runChecks th sym now st obs).2 = 0 := by
  intro obs
  induction obs with
  | nil => intro st T _ _; simp [runChecks_nil, countNotified_nil]
  | cons p rest ih =>
    intro st T hl hall
    obtain ⟨c, sr⟩ := p
    have hot : c.open_time = T := hall (c, sr) (List.mem_cons_self _ _)
    have hhit : List.lookup sym st = some c.open_time := by rw [hot]; exact hl
    rw [runChecks_cons, checkTF_hit th st sym c sr now hhit]
    rw [countNotified_cons]
    simp [CheckResult.isNotified]
    exact ih st T hl (fun q hq => hall q (List.mem_cons_of_mem _ hq))

theorem runChecks_count_le_one (th : ℚ) (sym now : String) :
    ∀ (obs : List (Candle × SendResult)) (st : DedupMap) (T : Nat),
      (∀ p ∈ obs, (Prod.fst p).open_time = T) →
      countNotified (runChecks th sym now st obs).2 ≤ 1 := by
  intro obs
  induction obs with
  | nil => intro st T _; simp [runChecks_nil, countNotified_nil]
  | cons p rest ih =>
    intro st T hall
    obtain ⟨c, sr⟩ := p
    have hot : c.open_time = T := hall (c, sr) (List.mem_cons_self _ _)
    have hrest : ∀ q ∈ rest, (Prod.fst q).open_time = T :=
      fun q hq => hall q (List.mem_cons_of_mem _ hq)
    rw [runChecks_cons, countNotified_cons]
    by_cases hn : (checkTF th st sym (some c) sr now).2.isNotified = true
    · have hst : (checkTF th st sym (some c) sr now).1 = dset st sym c.open_time :=
        checkTF_fst_of_notified th st sym c sr now hn
      have hzero :
          countNotified (runChecks th sym now (checkTF th st sym (some c) sr now).1 rest).2 = 0 := by
        refine runChecks_suppressed th sym now rest _ T ?_ hrest
        rw [hst, lookup_dset, hot]
      rw [hn, hzero]
      simp
    · have hrec := ih (checkTF th st sym (some c) sr now).1 T hrest
      have : (if (checkTF th st sym (some c) sr now).2.isNotified then 1 else 0) = 0 := by
        simp [hn]
      omega

/-! ### Helper lemmas about cycles and fetching -/

theorem runCycle_length (f : DedupMap → String → DedupMap × CheckResult) :
    ∀ (syms : List String) (st : DedupMap), ((runCycle f st syms).2).length = syms.length := by
  intro syms
  induction syms with
  | nil => intro st; rfl
  | cons s rest ih =>
    intro st
    show ((f st s).2 :: (runCycle f (f st s).1 rest).2).length = rest.length + 1
    rw [List.length_cons, ih (f st s).1]

theorem fetch_json_aux_all_err {α : Type} (net : Nat → FetchAttempt α) :
    ∀ (k i : Nat), (∀ m, i ≤ m → m ≤ i + k → net m = FetchAttempt.err) →
      fetch_json_aux net i k = none := by
  intro k
  induction k with
  | zero =>
    intro i h
    have hi : net i = FetchAttempt.err := h i (Nat.le_refl i) (by omega)
    simp [fetch_json_aux, hi]
  | succ k ih =>
    intro i h
    have hi : net i = FetchAttempt.err := h i (Nat.le_refl i) (by omega)
    simp [fetch_json_aux, hi]
    exact ih (i + 1) (fun m h1 h2 => h m (by omega) (by omega))

theorem fetch_json_aux_first_ok {α : Type} (net : Nat → FetchAttempt α) (j : Nat) (d : α)
    (hj : net j = FetchAttempt.ok d) (herr : ∀ m, m < j → net m = FetchAttempt.err) :
    ∀ (k i : Nat), i ≤ j → j ≤ i + k → fetch_json_aux net i k = some d := by
  intro k
  induction k with
  | zero =>
    intro i h1 h2
    have hij : i = j := by omega
    subst hij
    simp [fetch_json_aux, hj]
  | succ k ih =>
    intro i h1 h2
    by_cases hij : i = j
    · subst hij
      simp [fetch_json_aux, hj]
    · have hi : net i = FetchAttempt.err := herr i (by omega)
      simp [fetch_json_aux, hi]
      exact ih (i + 1) (by omega) (by omega)

/-! ### Concrete inputs used by witnesses and counterexamples -/

/-- A sample instrument identifier. -/
def symEx : String := "BTCUSDT"

/-- A sample `now_str()` timestamp. -/
def tsEx : String := "12:00:00 UTC"

/-- A breaching candle (change +10%) with open time 5. -/
def candleHit : Candle := ⟨5, 100, 120, 90, 110⟩

/-- A dedup map already holding open time 5 for `symEx`. -/
def stHit : DedupMap := [(symEx, 5)]

/-- Change of exactly +3.5%: open 100, close 103.5. -/
def cBoundary : Candle := ⟨0, 100, 104, 100, 207 / 2⟩

/-- Change of +3.49%: open 100, close 103.49. -/
def cNear : Candle := ⟨0, 100, 104, 100, 10349 / 100⟩

/-- Change of +1%, below every configured threshold, open time 7. -/
def cSmall : Candle := ⟨7, 100, 101, 99, 101⟩

/-- Change of +10%, breaching, with the same open time 7 as `cSmall`. -/
def cBig : Candle := ⟨7, 100, 110, 95, 110⟩

/-- A candle whose open price is zero. -/
def cZero : Candle := ⟨3, 0, 50, 0, 50⟩

theorem pc_cBoundary : percent_change cBoundary.open_ cBoundary.close = 7 / 2 := by
  norm_num [percent_change, cBoundary]

theorem pc_cNear : percent_change cNear.open_ cNear.close = 349 / 100 := by
  norm_num [percent_change, cNear]

theorem pc_cSmall : percent_change cSmall.open_ cSmall.close = 1 := by
  norm_num [percent_change, cSmall]

theorem pc_cBig : percent_change cBig.open_ cBig.close = 10 := by
  norm_num [percent_change, cBig]

theorem ONE_MIN_THRESHOLD_pos : 0 < ONE_MIN_THRESHOLD := by
  norm_num [ONE_MIN_THRESHOLD]

theorem th_le_cBig : ONE_MIN_THRESHOLD ≤ |percent_change cBig.open_ cBig.close| := by
  rw [pc_cBig, abs_of_pos (by norm_num)]
  norm_num [ONE_MIN_THRESHOLD]

theorem th_le_cBoundary : ONE_MIN_THRESHOLD ≤ |percent_change cBoundary.open_ cBoundary.close| := by
  rw [pc_cBoundary, abs_of_pos (by norm_num)]
  norm_num [ONE_MIN_THRESHOLD]

theorem cNear_lt_th : |percent_change cNear.open_ cNear.close| < ONE_MIN_THRESHOLD := by
  rw [pc_cNear, abs_of_pos (by norm_num)]
  norm_num [ONE_MIN_THRESHOLD]

theorem cSmall_lt_th : |percent_change cSmall.open_ cSmall.close| < ONE_MIN_THRESHOLD := by
  rw [pc_cSmall, abs_of_pos (by norm_num)]
  norm_num [ONE_MIN_THRESHOLD]

/-- C1: whenever the stored dedup entry for a (timeframe, instrument) equals
the fetched candle's open time, the check returns Suppressed unconditionally
(any threshold, any send outcome, state untouched); consequently, along any
sequence of polls of one symbol that all observe the same open time, at most
one notification is dispatched. -/
theorem dedup_at_most_once :
    (∀ (th : ℚ) (st : DedupMap) (sym : String) (c : Candle) (sr : SendResult) (now : String),
        List.lookup sym st = some c.open_time →
        checkTF th st sym (some c) sr now = (st, CheckResult.suppressedDedup))
    ∧ ∀ (th : ℚ) (sym now : String) (st : DedupMap) (T : Nat)
        (obs : List (Candle × SendResult)),
        (∀ p ∈ obs, (Prod.fst p).open_time = T) →
        countNotified (runChecks th sym now st obs).2 ≤ 1 :=
  ⟨fun th st sym c sr now h => checkTF_hit th st sym c sr now h,
   fun th sym now st T obs h => runChecks_count_le_one th sym now obs st T h⟩

theorem dedup_at_most_once_witness :
    checkTF ONE_MIN_THRESHOLD stHit symEx (some candleHit) SendResult.ok tsEx
      = (stHit, CheckResult.suppressedDedup)
    ∧ countNotified
        (runChecks ONE_MIN_THRESHOLD symEx tsEx []
          [(candleHit, SendResult.ok), (candleHit, SendResult.ok)]).2 ≤ 1 :=
  ⟨dedup_at_most_once.1 ONE_MIN_THRESHOLD stHit symEx candleHit SendResult.ok tsEx (by decide),
   dedup_at_most_once.2 ONE_MIN_THRESHOLD symEx tsEx [] 5
     [(candleHit, SendResult.ok), (candleHit, SendResult.ok)] (by decide)⟩

/-- C2: for a candle not suppressed by dedup, the threshold branch is entered
exactly when the absolute percentage change meets or exceeds the timeframe's
threshold (`>=`): exactly the threshold breaches, any strictly smaller
absolute change does not. -/
theorem threshold_boundary :
    ∀ (th : ℚ) (st : DedupMap) (sym now : String) (c : Candle) (sr : SendResult),
      ¬ List.lookup sym st = some c.open_time →
      ((checkTF th st sym (some c) sr now).2.breached = true ↔
        th ≤ |percent_change c.open_ c.close|) := by
  intro th st sym now c sr h
  by_cases hb : th ≤ |percent_change c.open_ c.close|
  · cases sr
    · rw [checkTF_breach_ok th st sym c now h hb]
      simp [CheckResult.breached, hb]
    · rw [checkTF_breach_raised th st sym c now h hb]
      simp [CheckResult.breached, hb]
  · rw [checkTF_below th st sym c sr now h hb]
    simp [CheckResult.breached, hb]

theorem threshold_boundary_witness :
    (checkTF ONE_MIN_THRESHOLD [] symEx (some cBoundary) SendResult.ok tsEx).2.breached = true
    ∧ (checkTF ONE_MIN_THRESHOLD [] symEx (some cNear) SendResult.ok tsEx).2.breached = false := by
  constructor
  · exact (threshold_boundary ONE_MIN_THRESHOLD [] symEx tsEx cBoundary SendResult.ok
      (by decide)).mpr th_le_cBoundary
  · have h := threshold_boundary ONE_MIN_THRESHOLD [] symEx tsEx cNear SendResult.ok (by decide)
    have hno : ¬ (checkTF ONE_MIN_THRESHOLD [] symEx (some cNear) SendResult.ok tsEx).2.breached
        = true := fun hb => absurd (h.mp hb) (not_le.mpr cNear_lt_th)
    simp only [Bool.not_eq_true] at hno
    exact hno

/-- C3: a candle below the threshold yields Suppressed with the dedup map left
unchanged, so a later poll observing the same open time with a breaching
change still dispatches a notification. -/
theorem below_threshold_frame :
    ∀ (th : ℚ) (st : DedupMap) (sym now : String) (c : Candle) (sr : SendResult),
      ¬ List.lookup sym st = some c.open_time →
      |percent_change c.open_ c.close| < th →
      checkTF th st sym (some c) sr now = (st, CheckResult.suppressedBelow)
      ∧ ∀ c2 : Candle, c2.open_time = c.open_time →
          th ≤ |percent_change c2.open_ c2.close| →
          (checkTF th st sym (some c2) SendResult.ok now).2.isNotified = true := by
  intro th st sym now c sr h hlt
  have hnb : ¬ th ≤ |percent_change c.open_ c.close| := not_le.mpr hlt
  refine ⟨checkTF_below th st sym c sr now h hnb, ?_⟩
  intro c2 hot hb
  have h2 : ¬ List.lookup sym st = some c2.open_time := by rw [hot]; exact h
  rw [checkTF_breach_ok th st sym c2 now h2 hb]
  rfl

theorem below_threshold_frame_witness :
    checkTF ONE_MIN_THRESHOLD [] symEx (some cSmall) SendResult.ok tsEx
      = ([], CheckResult.suppressedBelow)
    ∧ (checkTF ONE_MIN_THRESHOLD [] symEx (some cBig) SendResult.ok tsEx).2.isNotified = true := by
  have h := below_threshold_frame ONE_MIN_THRESHOLD [] symEx tsEx cSmall SendResult.ok
    (by decide) cSmall_lt_th
  exact ⟨h.1, h.2 cBig (by decide) th_le_cBig⟩

/-- C8: a candle with zero open price has percentage change exactly 0
regardless of the close, and (the thresholds being positive) the threshold
branch is never entered: the check is suppressed with state unchanged. -/
theorem zero_open_guard :
    (∀ c : ℚ, percent_change 0 c = 0)
    ∧ ∀ (th : ℚ) (st : DedupMap) (sym now : String) (cd : Candle) (sr : SendResult),
        0 < th → cd.open_ = 0 →
        checkTF th st sym (some cd) sr now = (st, CheckResult.suppressedDedup)
        ∨ checkTF th st sym (some cd) sr now = (st, CheckResult.suppressedBelow) := by
  constructor
  · intro c; simp [percent_change]
  · intro th st sym now cd sr hth ho
    by_cases h1 : List.lookup sym st = some cd.open_time
    · exact Or.inl (checkTF_hit th st sym cd sr now h1)
    · refine Or.inr ?_
      have hpc : percent_change cd.open_ cd.close = 0 := by rw [ho]; simp [percent_change]
      have hnb : ¬ th ≤ |percent_change cd.open_ cd.close| := by
        rw [hpc, abs_zero]
        exact not_le.mpr hth
      exact checkTF_below th st sym cd sr now h1 hnb

theorem zero_open_guard_witness :
    percent_change 0 50 = 0
    ∧ (checkTF ONE_MIN_THRESHOLD [] symEx (some cZero) SendResult.ok tsEx
        = ([], CheckResult.suppressedDedup)
       ∨ checkTF ONE_MIN_THRESHOLD [] symEx (some cZero) SendResult.ok tsEx
        = ([], CheckResult.suppressedBelow)) :=
  ⟨zero_open_guard.1 50,
   zero_open_guard.2 ONE_MIN_THRESHOLD [] symEx tsEx cZero SendResult.ok ONE_MIN_THRESHOLD_pos rfl⟩

/-- C10: on a breaching, non-deduplicated candle, if the Telegram send raises,
the per-instrument handler catches it and the dedup entry is left unchanged
(the check ends as a logged error); the same candle presented again with a
succeeding send is dispatched, and only then is the dedup entry written. -/
theorem dedup_after_send :
    ∀ (th : ℚ) (st : DedupMap) (sym now : String) (c : Candle),
      ¬ List.lookup sym st = some c.open_time →
      th ≤ |percent_change c.open_ c.close| →
      checkTF th st sym (some c) SendResult.raised now = (st, CheckResult.errorLogged)
      ∧ (checkTF th st sym (some c) SendResult.ok now).2.isNotified = true
      ∧ (checkTF th st sym (some c) SendResult.ok now).1 = dset st sym c.open_time := by
  intro th st sym now c h hb
  refine ⟨checkTF_breach_raised th st sym c now h hb, ?_, ?_⟩
  · rw [checkTF_breach_ok th st sym c now h hb]
    rfl
  · rw [checkTF_breach_ok th st sym c now h hb]

theorem dedup_after_send_witness :
    checkTF ONE_MIN_THRESHOLD [] symEx (some cBig) SendResult.raised tsEx
      = ([], CheckResult.errorLogged)
    ∧ (checkTF ONE_MIN_THRESHOLD [] symEx (some cBig) SendResult.ok tsEx).1
      = dset [] symEx cBig.open_time :=
  ⟨(dedup_after_send ONE_MIN_THRESHOLD [] symEx tsEx cBig (by decide) th_le_cBig).1,
   (dedup_after_send ONE_MIN_THRESHOLD [] symEx tsEx cBig (by decide) th_le_cBig).2.2⟩

/-- Breaching candle, high 200 / low 1. -/
def cHighA : Candle := ⟨0, 100, 200, 1, 110⟩

/-- Breaching candle identical to `cHighA` except high 300 / low 50. -/
def cHighB : Candle := ⟨0, 100, 300, 50, 110⟩

theorem pc_cHighA : percent_change cHighA.open_ cHighA.close = 10 := by
  norm_num [percent_change, cHighA]

theorem pc_cHighB : percent_change cHighB.open_ cHighB.close = 10 := by
  norm_num [percent_change, cHighB]

theorem th_le_cHighA : ONE_MIN_THRESHOLD ≤ |percent_change cHighA.open_ cHighA.close| := by
  rw [pc_cHighA, abs_of_pos (by norm_num)]
  norm_num [ONE_MIN_THRESHOLD]

theorem th_le_cHighB : ONE_MIN_THRESHOLD ≤ |percent_change cHighB.open_ cHighB.close| := by
  rw [pc_cHighB, abs_of_pos (by norm_num)]
  norm_num [ONE_MIN_THRESHOLD]

/-- C9 counterexample: two candles that differ only in high and low produce
the very same dispatched notification, so the message cannot carry the full
OHLC snapshot — high and low are fetched but never put into the message
(src lines 113-119). -/
theorem msg_omits_high_low_cex :
    (check_1m [] symEx (some cHighA) SendResult.ok tsEx).2
      = (check_1m [] symEx (some cHighB) SendResult.ok tsEx).2
    ∧ cHighA.high ≠ cHighB.high ∧ cHighA.low ≠ cHighB.low
    ∧ (check_1m [] symEx (some cHighA) SendResult.ok tsEx).2.isNotified = true := by
  have hA := checkTF_breach_ok ONE_MIN_THRESHOLD [] symEx cHighA tsEx (by decide) th_le_cHighA
  have hB := checkTF_breach_ok ONE_MIN_THRESHOLD [] symEx cHighB tsEx (by decide) th_le_cHighB
  refine ⟨?_, ?_, ?_, ?_⟩
  · show (checkTF ONE_MIN_THRESHOLD [] symEx (some cHighA) SendResult.ok tsEx).2
      = (checkTF ONE_MIN_THRESHOLD [] symEx (some cHighB) SendResult.ok tsEx).2
    rw [hA, hB, pc_cHighA, pc_cHighB]
    simp [cHighA, cHighB]
  · norm_num [cHighA, cHighB]
  · norm_num [cHighA, cHighB]
  · show (checkTF ONE_MIN_THRESHOLD [] symEx (some cHighA) SendResult.ok tsEx).2.isNotified = true
    rw [hA]
    rfl

/-- C9 amended: every dispatched notification message carries the instrument,
the direction, the change magnitude, the candle's open and close prices and
the wall-clock timestamp — but not the candle's high or low. -/
theorem msg_fields :
    ∀ (th : ℚ) (st : DedupMap) (sym now : String) (c : Candle),
      ¬ List.lookup sym st = some c.open_time →
      th ≤ |percent_change c.open_ c.close| →
      (checkTF th st sym (some c) SendResult.ok now).2
        = CheckResult.notified
            ⟨sym, now,
             if 0 < percent_change c.open_ c.close then dirUp else dirDown,
             percent_change c.open_ c.close, c.open_, c.close⟩ := by
  intro th st sym now c h hb
  rw [checkTF_breach_ok th st sym c now h hb]

theorem msg_fields_witness :
    (checkTF ONE_MIN_THRESHOLD [] symEx (some cBig) SendResult.ok tsEx).2
      = CheckResult.notified
          ⟨symEx, tsEx,
           if 0 < percent_change cBig.open_ cBig.close then dirUp else dirDown,
           percent_change cBig.open_ cBig.close, cBig.open_, cBig.close⟩ :=
  msg_fields ONE_MIN_THRESHOLD [] symEx tsEx cBig (by decide) th_le_cBig

/-- C6 counterexample: with an empty exchange catalogue the resolved symbol
list is empty, yet `main` (src lines 177-186) proceeds into the monitor
loops over zero instruments instead of aborting. -/
theorem main_no_abort_on_empty_cex :
    main_startup [] = StartupOutcome.monitors []
    ∧ main_startup [] ≠ StartupOutcome.abortEmpty := by
  constructor
  · rfl
  · intro h
    exact StartupOutcome.noConfusion h

/-- C6 amended: when instrument resolution yields an empty set, the program
does not abort: `main` logs the zero count and starts both monitor loops
over the empty instrument list. -/
theorem main_monitors_on_empty :
    ∀ catalog : List SymbolInfo,
      get_usdt_perpetual_symbols catalog = [] →
      main_startup catalog = StartupOutcome.monitors [] := by
  intro catalog h
  unfold main_startup
  rw [h]

theorem main_monitors_on_empty_witness :
    main_startup [] = StartupOutcome.monitors [] :=
  main_monitors_on_empty [] rfl

theorem mem_get_usdt (catalog : List SymbolInfo) (s : String) :
    s ∈ get_usdt_perpetual_symbols catalog ↔
      ∃ e ∈ catalog, e.symbol = s ∧ e.status = statusTrading
        ∧ endswith s usdtSuffix = true := by
  simp only [get_usdt_perpetual_symbols, List.mem_map, List.mem_filter,
    Bool.and_eq_true, beq_iff_eq]
  constructor
  · rintro ⟨e, ⟨he, hst, hend⟩, hsym⟩
    subst hsym
    exact ⟨e, he, rfl, hst, hend⟩
  · rintro ⟨e, he, hsym, hst, hend⟩
    subst hsym
    exact ⟨e, ⟨he, hst, hend⟩, rfl⟩

/-- C5: a symbol is in the resolved instrument set exactly when the catalogue
holds an entry for it with status TRADING and its identifier ends in the
USDT suffix, and, when an allow-list is configured, it additionally matches
some allow-list entry case-insensitively. -/
theorem resolve_filter :
    ∀ (allow : Option (List String)) (catalog : List SymbolInfo) (s : String),
      s ∈ resolve allow catalog ↔
        ((∃ e ∈ catalog, e.symbol = s ∧ e.status = statusTrading
            ∧ endswith s usdtSuffix = true)
         ∧ ∀ al, allow = some al → ∃ a ∈ al, lowerEq a s = true) := by
  intro allow catalog s
  cases allow with
  | none =>
    simp only [resolve, apply_allow_list]
    rw [mem_get_usdt]
    constructor
    · intro h
      exact ⟨h, fun al hal => Option.noConfusion hal⟩
    · intro h
      exact h.1
  | some al =>
    simp only [resolve, apply_allow_list, List.mem_filter]
    rw [mem_get_usdt]
    constructor
    · rintro ⟨hmem, hany⟩
      refine ⟨hmem, ?_⟩
      intro al2 hal2
      cases hal2
      simp only [List.any_eq_true] at hany
      exact hany
    · rintro ⟨hbase, hallow⟩
      refine ⟨hbase, ?_⟩
      simp only [List.any_eq_true]
      exact hallow al rfl

/-- A sample exchange catalogue: a tradable USDT perpetual, a tradable
non-USDT pair, and a halted USDT pair. -/
def catalogEx : List SymbolInfo :=
  [⟨"BTCUSDT", "TRADING"⟩, ⟨"ETHBTC", "TRADING"⟩, ⟨"XYZUSDT", "BREAK"⟩]

theorem resolve_filter_witness :
    symEx ∈ resolve none catalogEx
    ∧ symEx ∈ resolve (some ["btcusdt"]) catalogEx :=
  ⟨(resolve_filter none catalogEx symEx).mpr
      ⟨by decide, fun al hal => Option.noConfusion hal⟩,
   (resolve_filter (some ["btcusdt"]) catalogEx symEx).mpr
      ⟨by decide, fun al hal => by cases hal; decide⟩⟩

/-- C4: `fetch_json` returns the first successful attempt among attempts
`0 .. retries` and `none` once all `retries + 1` attempts fail;
`get_last_candle` returns `none` (never raises) both on fetch failure and
when the exchange returns no bars, and otherwise the candle of the last
returned row; an absent candle makes the per-symbol check a no-op with the
dedup state untouched, so the cycle goes on for the other instruments. -/
theorem fetch_retry_absent :
    (∀ (α : Type) (net : Nat → FetchAttempt α) (retries : Nat),
        (∀ i, i < retries + 1 → net i = FetchAttempt.err) →
        fetch_json net retries = none)
    ∧ (∀ (α : Type) (net : Nat → FetchAttempt α) (retries j : Nat) (d : α),
        j ≤ retries → (∀ m, m < j → net m = FetchAttempt.err) →
        net j = FetchAttempt.ok d →
        fetch_json net retries = some d)
    ∧ (∀ net : Nat → FetchAttempt (List KlineRow),
        fetch_json net 2 = none → get_last_candle net = none)
    ∧ (∀ net : Nat → FetchAttempt (List KlineRow),
        fetch_json net 2 = some [] → get_last_candle net = none)
    ∧ (∀ (net : Nat → FetchAttempt (List KlineRow)) (rows : List KlineRow) (k : KlineRow),
        fetch_json net 2 = some rows → rows.getLast? = some k →
        get_last_candle net = some (candleOfRow k))
    ∧ ∀ (th : ℚ) (st : DedupMap) (sym now : String) (sr : SendResult),
        checkTF th st sym none sr now = (st, CheckResult.fetchAbsent) := by
  refine ⟨?_, ?_, ?_, ?_, ?_, ?_⟩
  · intro α net retries h
    exact fetch_json_aux_all_err net retries 0 (fun m h1 h2 => h m (by omega))
  · intro α net retries j d hj herr hok
    exact fetch_json_aux_first_ok net j d hok herr retries 0 (by omega) (by omega)
  · intro net h
    simp [get_last_candle, h]
  · intro net h
    simp [get_last_candle, h]
  · intro net rows k h hk
    simp [get_last_candle, h, hk]
  · intro th st sym now sr
    rfl

/-- A network where every attempt fails. -/
def netErr : Nat → FetchAttempt (List KlineRow) := fun _ => FetchAttempt.err

/-- A sample kline row. -/
def rowEx : KlineRow := ⟨9, 100, 110, 90, 105⟩

/-- A network failing on attempt 0 and succeeding on attempt 1. -/
def netOk : Nat → FetchAttempt (List KlineRow) :=
  fun i => if i = 1 then FetchAttempt.ok [rowEx] else FetchAttempt.err

theorem fetch_retry_absent_witness :
    fetch_json netErr 2 = none ∧ get_last_candle netOk = some (candleOfRow rowEx) := by
  constructor
  · exact fetch_retry_absent.1 _ netErr 2 (fun i _ => rfl)
  · have hfj : fetch_json netOk 2 = some [rowEx] :=
      fetch_retry_absent.2.1 _ netOk 2 1 [rowEx] (by omega)
        (fun m hm => by
          have hm0 : m = 0 := by omega
          subst hm0
          rfl)
        rfl
    exact fetch_retry_absent.2.2.2.2.1 netOk [rowEx] rowEx hfj rfl

/-- C7: a monitor-loop iteration completes the work of every instrument in
the list (one recorded outcome per instrument) before sleeping, and the
sleep duration is `max 1 (interval - elapsed)`: always at least one second,
and exactly one second whenever the cycle overran the interval. -/
theorem cycle_pacing :
    ∀ (f : DedupMap → String → DedupMap × CheckResult) (interval : ℚ) (st : DedupMap)
      (syms : List String) (elapsed : ℚ),
      ((monitor_cycle f interval st syms elapsed).2.1).length = syms.length
      ∧ (monitor_cycle f interval st syms elapsed).2.2 = max 1 (interval - elapsed)
      ∧ 1 ≤ (monitor_cycle f interval st syms elapsed).2.2
      ∧ (interval ≤ elapsed → (monitor_cycle f interval st syms elapsed).2.2 = 1)
      ∧ ∀ (stx : DedupMap) (symsx : List String) (fetchEnv : String → Option Candle)
          (sendEnv : String → SendResult) (now : String) (el : ℚ),
          (monitor_1m_cycle stx symsx fetchEnv sendEnv now el).2.2
            = max 1 (ONE_MIN_INTERVAL - el)
          ∧ (monitor_5m_cycle stx symsx fetchEnv sendEnv now el).2.2
            = max 1 (FIVE_MIN_INTERVAL - el) := by
  intro f interval st syms elapsed
  refine ⟨runCycle_length f syms st, rfl, le_max_left 1 _, ?_, ?_⟩
  · intro h
    show monitor_sleep interval elapsed = 1
    unfold monitor_sleep
    exact max_eq_left (by linarith)
  · intro stx symsx fetchEnv sendEnv now el
    exact ⟨rfl, rfl⟩

/-- A per-symbol unit of work whose fetch came back absent. -/
def checkFnEx : DedupMap → String → DedupMap × CheckResult :=
  fun st _ => (st, CheckResult.fetchAbsent)

theorem cycle_pacing_witness :
    ((monitor_cycle checkFnEx ONE_MIN_INTERVAL [] [symEx] 50).2.1).length = 1
    ∧ (monitor_cycle checkFnEx ONE_MIN_INTERVAL [] [symEx] 50).2.2 = 1 :=
  ⟨(cycle_pacing checkFnEx ONE_MIN_INTERVAL [] [symEx] 50).1,
   (cycle_pacing checkFnEx ONE_MIN_INTERVAL [] [symEx] 50).2.2.2.1
     (by norm_num [ONE_MIN_INTERVAL])⟩
